import Mathlib

namespace OlyphVoice

/-!
Verification of the voice-capture subsystem of
`src/static/script_chat_survey.js` (Olyph-AI-User).

The file embeds the three script variants found in the source:
* the PCM recording variant (`startRecording`/`stopRecording`/`sendVoice`/
  `createWavBlob`/`uint8ToBase64`, with `processor.onaudioprocess`),
* the live-transcript variant with a `speechSessionId` generation counter
  (`resetSpeechState`, `startRecording`, `recognizer.onresult`, the timer),
* the first live-transcript variant with the `liveTranscript` accumulator
  (`liveRecognizer.onresult`, `stopRecording`).

Audio samples are modelled as rationals: every arithmetic operation the
code performs on a sample (clamp, multiply by `0x7fff`, truncate) is exact
on the inputs involved, so the rational model is faithful to the
floating-point code. Byte buffers are lists of naturals below 256 and
strings are lists of characters.
-/

/-! ## Sample conversion (`processor.onaudioprocess`) -/

/-- Truncation toward zero of a rational, as in the JS abstract operation
`ToIntegerOrInfinity` applied to a finite number. -/

def truncQ (q : ℚ) : ℤ := if 0 ≤ q then ⌊q⌋ else ⌈q⌉

/-- The JS `ToInt16` conversion applied after truncation: wrap the
truncated value modulo `2^16` into `[-2^15, 2^15)`.  This is what storing
into an `Int16Array` element performs. -/

def toInt16 (q : ℚ) : ℤ :=
  if 32768 ≤ truncQ q % 65536 then truncQ q % 65536 - 65536 else truncQ q % 65536

/-- Model of `Math.max(-1, Math.min(1, x))` from `processor.onaudioprocess`. -/

def clampQ (x : ℚ) : ℚ := max (-1) (min 1 x)

/-- Model of `pcm16[i] = Math.max(-1, Math.min(1, data[i])) * 0x7fff`, stored in an
`Int16Array` slot. -/

def pcmOfSample (x : ℚ) : ℤ := toInt16 (clampQ x * 32767)

/-- The saturate-scale-truncate value named by the specification:
`clamp(x, -1, 1) * 32767`, truncated toward zero. -/

def specSample (x : ℚ) : ℤ := truncQ (clampQ x * 32767)

/-- Little-endian byte view of a 16-bit store, as exposed by
`new Uint8Array(pcm16.buffer)` and by `DataView.setInt16(_, v, true)`. -/

def int16LEBytes (v : ℤ) : List ℕ :=
  [(v % 65536).toNat % 256, (v % 65536).toNat / 256]

/-- Decode two bytes, little endian, back to a signed 16-bit integer. -/

def decodeInt16LE (b0 b1 : ℕ) : ℤ :=
  if 32768 ≤ b0 + 256 * b1 then (b0 : ℤ) + 256 * b1 - 65536 else (b0 : ℤ) + 256 * b1

/-- Decode a byte sequence as consecutive little-endian signed 16-bit
integers. -/

def decodePcmBytes : List ℕ → List ℤ
  | b0 :: b1 :: rest => decodeInt16LE b0 b1 :: decodePcmBytes rest
  | _ => []

/-! ## Frame buffers (`pcmChunks` / `wavChunks`, `sendVoice` merge) -/

/-- The byte chunk pushed by `pcmChunks.push(new Uint8Array(pcm16.buffer))`:
the little-endian byte view of the converted samples of one audio frame. -/

def frameBytes (frame : List ℚ) : List ℕ :=
  ((frame.map pcmOfSample).map int16LEBytes).flatten

/-- The `Int16Array` chunk pushed by `wavChunks.push(pcm16)`. -/

def frameInts (frame : List ℚ) : List ℤ := frame.map pcmOfSample

/-- The merge loop of `sendVoice`: all byte chunks concatenated in arrival
order into one contiguous buffer. -/

def mergeChunks (chunks : List (List ℕ)) : List ℕ := chunks.flatten

/-! ## Transport encoder (`uint8ToBase64` and `btoa`) -/

/-- The Base64 alphabet used by `btoa`. -/

def b64Alphabet : List Char :=
  "ABCDEFGHIJKLMNOPQRSTUVWXYZabcdefghijklmnopqrstuvwxyz0123456789+/".data

/-- Output character for one six-bit group. -/

def b64Char (n : ℕ) : Char := b64Alphabet.getD n '='

/-- Position of a character in the Base64 alphabet, as a standard decoder
recovers it. -/

def b64Index (c : Char) : ℕ := b64Alphabet.indexOf c

/-- Model of `btoa`: standard Base64 over a string of 8-bit character codes, three
bytes to four output characters, `=`-padded. -/

def btoaEnc : List ℕ → List Char
  | [] => []
  | [b0] => [b64Char (b0 / 4), b64Char (b0 % 4 * 16), '=', '=']
  | [b0, b1] =>
      [b64Char (b0 / 4), b64Char (b0 % 4 * 16 + b1 / 16), b64Char (b1 % 16 * 4), '=']
  | b0 :: b1 :: b2 :: rest =>
      b64Char (b0 / 4) :: b64Char (b0 % 4 * 16 + b1 / 16) ::
      b64Char (b1 % 16 * 4 + b2 / 64) :: b64Char (b2 % 64) :: btoaEnc rest

/-- Standard Base64 decoding, the inverse transform the receiving side
applies to the `audio` field. -/

def b64Dec : List Char → List ℕ
  | c0 :: c1 :: c2 :: c3 :: rest =>
      if c2 = '=' then [b64Index c0 * 4 + b64Index c1 / 16]
      else if c3 = '=' then
        [b64Index c0 * 4 + b64Index c1 / 16, b64Index c1 % 16 * 16 + b64Index c2 / 4]
      else
        (b64Index c0 * 4 + b64Index c1 / 16) ::
        (b64Index c1 % 16 * 16 + b64Index c2 / 4) ::
        (b64Index c2 % 4 * 64 + b64Index c3) :: b64Dec rest
  | _ => []

/-- The slice loop of `uint8ToBase64`: the `String.fromCharCode` run of each
`CHUNK_SIZE`-sized slice, concatenated.  A byte value below 256 is its own
character code, so the characters are kept as the byte values. -/

def chunkedRuns (csz : ℕ) (l : List ℕ) : List ℕ :=
  if h : csz = 0 ∨ l = [] then [] else l.take csz ++ chunkedRuns csz (l.drop csz)
termination_by l.length
decreasing_by
  rw [List.length_drop]
  rcases Nat.eq_zero_or_pos csz with hc | hc
  · exact absurd (Or.inl hc) h
  · have hl : l ≠ [] := fun he => h (Or.inr he)
    have : 0 < l.length := List.length_pos.mpr hl
    omega

/-- Model of `uint8ToBase64` with the slice size left as a parameter. -/

def uint8ToBase64With (csz : ℕ) (u8 : List ℕ) : List Char := btoaEnc (chunkedRuns csz u8)

/-- The transport encoder of the source, `CHUNK_SIZE = 0x8000`. -/

def uint8ToBase64 (u8 : List ℕ) : List Char := uint8ToBase64With 32768 u8

/-! ## WAV encoder (`createWavBlob`) -/

def riffTag : String := "RIFF"

def waveTag : String := "WAVEfmt "

def dataTag : String := "data"

/-- Model of `view.setUint16(offset, n, true)`: two little-endian bytes. -/

def u16LE (n : ℕ) : List ℕ := [n % 256, n / 256 % 256]

/-- Model of `view.setUint32(offset, n, true)`: four little-endian bytes. -/

def u32LE (n : ℕ) : List ℕ := [n % 256, n / 256 % 256, n / 65536 % 256, n / 16777216 % 256]

/-- Model of `writeString`: `charCodeAt(i)` of each character through `setUint8`. -/

def writeStringBytes (s : String) : List ℕ := s.data.map (fun c => c.toNat % 256)

/-- The data section: `view.setInt16(offset, sample, true)` for every
sample of every chunk, in chunk order. -/

def wavDataBytes (chunks : List (List ℤ)) : List ℕ :=
  (chunks.map (fun c => (c.map int16LEBytes).flatten)).flatten

/-- Model of `createWavBlob(chunks, sampleRate)`: the byte content of the returned
blob, writes at consecutive `DataView` offsets concatenated in order. -/

def createWavBlob (chunks : List (List ℤ)) (sampleRate : ℕ) : List ℕ :=
  writeStringBytes riffTag ++ u32LE (36 + (chunks.map List.length).sum * 2) ++
  writeStringBytes waveTag ++ u32LE 16 ++ u16LE 1 ++ u16LE 1 ++
  u32LE sampleRate ++ u32LE (sampleRate * 2) ++ u16LE 2 ++ u16LE 16 ++
  writeStringBytes dataTag ++ u32LE ((chunks.map List.length).sum * 2) ++
  wavDataBytes chunks

/-- Little-endian read of a 32-bit field at byte offset `i`. -/

def u32At (bs : List ℕ) (i : ℕ) : ℕ :=
  bs.getD i 0 + 256 * bs.getD (i + 1) 0 + 65536 * bs.getD (i + 2) 0 +
  16777216 * bs.getD (i + 3) 0

/-- Little-endian read of a 16-bit field at byte offset `i`. -/

def u16At (bs : List ℕ) (i : ℕ) : ℕ := bs.getD i 0 + 256 * bs.getD (i + 1) 0

/-! ## Shared UI constants -/

def askMode : String := "ask"

def modeWarnMsg : List Char := ("Voice works only in chat mode.").data

def unsupportedMsg : List Char := ("Speech recognition not supported.").data

def noSoundWarnMsg : List Char := ("No audio recorded.").data

def processingMsg : List Char := ("Processing voice...").data

def sendFailMsg : List Char := ("Failed to send voice.").data

def noReplyMsg : List Char := ("No reply").data

def noSpeechWarnMsg : List Char := ("No speech detected.").data

def serverErrorMsg : List Char := ("Server error").data

/-- Model of `String.prototype.trim`: strip whitespace from both ends. -/

def trimL (s : List Char) : List Char :=
  ((s.dropWhile Char.isWhitespace).reverse.dropWhile Char.isWhitespace).reverse

/-- Outcome of a network call (`fetch` + `res.json()`): either a parsed
response or a failure caught by the surrounding `try`/`catch`. -/

inductive FetchOutcome
  | ok (transcript : Option (List Char)) (reply : Option (List Char))
  | fail
deriving DecidableEq

/-! ## PCM recording session (third variant of the source) -/

/-- Widget state of the PCM recording variant.  `messages` is the chat log
(`addMessage`), `sentPayloads` the `(audio, sampleRate)` bodies posted to
`/speech-chat`, and `uncaughtErrors` counts async exceptions that escape
unhandled (this variant never tests backend availability). -/

structure PcmState where
  selectedMode : Option String
  pcmChunks : List (List ℕ)
  wavChunks : List (List ℤ)
  seconds : ℕ
  timerActive : Bool
  micOpen : Bool
  recordingBarVisible : Bool
  voicePreviewVisible : Bool
  previewBytes : Option (List ℕ)
  messages : List (List Char)
  fetchCount : ℕ
  sentPayloads : List (List Char × ℕ)
  uncaughtErrors : ℕ
deriving DecidableEq

/-- Model of `startRecording` of the PCM variant.  `backendAvailable` models whether
`navigator.mediaDevices`/`getUserMedia` exists; the code never tests it, so
an unavailable backend surfaces as an uncaught rejection thrown at the
`await`, after the mode check and before any buffer or UI state is
touched. -/

def pcmStartRecording (backendAvailable : Bool) (st : PcmState) : PcmState :=
  if st.selectedMode ≠ some askMode then
    { st with messages := st.messages ++ [modeWarnMsg] }
  else if backendAvailable = false then
    { st with uncaughtErrors := st.uncaughtErrors + 1 }
  else
    { st with
      micOpen := true
      pcmChunks := []
      wavChunks := []
      seconds := 0
      recordingBarVisible := true
      voicePreviewVisible := false
      timerActive := true }

/-- Model of `processor.onaudioprocess`: convert the float frame and push both the
byte view and the `Int16Array` view.  No session token exists in this
variant, so the callback is never gated. -/

def pcmOnAudioProcess (frame : List ℚ) (st : PcmState) : PcmState :=
  { st with
    pcmChunks := st.pcmChunks ++ [frameBytes frame]
    wavChunks := st.wavChunks ++ [frameInts frame] }

/-- Run a sequence of audio-processing callbacks in delivery order. -/

def runFrames (frames : List (List ℚ)) (st : PcmState) : PcmState :=
  frames.foldl (fun s f => pcmOnAudioProcess f s) st

/-- Model of `stopRecording` of the PCM variant: stop the timer, release the mic,
build the WAV preview from `wavChunks`. -/

def pcmStopRecording (st : PcmState) : PcmState :=
  { st with
    timerActive := false
    recordingBarVisible := false
    micOpen := false
    previewBytes := some (createWavBlob st.wavChunks 16000)
    voicePreviewVisible := true }

/-- Model of `discardRecording`: the cancel path, also invoked at the end of
`sendVoice`. -/

def discardRecording (st : PcmState) : PcmState :=
  { st with
    voicePreviewVisible := false
    pcmChunks := []
    wavChunks := [] }

/-- Model of `sendVoice` of the PCM variant, the network outcome a parameter. -/

def sendVoice (outcome : FetchOutcome) (st : PcmState) : PcmState :=
  if st.pcmChunks = [] then { st with messages := st.messages ++ [noSoundWarnMsg] }
  else
    let st1 := { st with messages := st.messages ++ [processingMsg] }
    let payload := uint8ToBase64 (mergeChunks st1.pcmChunks)
    let st2 :=
      { st1 with
        fetchCount := st1.fetchCount + 1
        sentPayloads := st1.sentPayloads ++ [(payload, 16000)] }
    let st3 :=
      match outcome with
      | FetchOutcome.ok t r =>
          { st2 with messages := st2.messages ++ t.toList ++ [r.getD noReplyMsg] }
      | FetchOutcome.fail => { st2 with messages := st2.messages ++ [sendFailMsg] }
    discardRecording st3

/-! ## Token-gated live-transcript session (second variant) -/

/-- Widget state of the live-transcript variant with the `speechSessionId`
generation counter. -/

structure LiveState where
  selectedMode : Option String
  speechSessionId : ℕ
  isRecording : Bool
  recognizerActive : Bool
  userInputValue : List Char
  recordingBarVisible : Bool
  voicePreviewVisible : Bool
  seconds : ℕ
  messages : List (List Char)
  fetchCount : ℕ
deriving DecidableEq

/-- Model of `resetSpeechState`: bump the generation counter, abort and drop any
recognizer, hide the bars, clear the input. -/

def resetSpeechState (st : LiveState) : LiveState :=
  { st with
    speechSessionId := st.speechSessionId + 1
    isRecording := false
    recognizerActive := false
    recordingBarVisible := false
    voicePreviewVisible := false
    userInputValue := [] }

/-- Model of `startRecording` of the token-gated live variant. -/

def liveStartRecording (backendAvailable : Bool) (st : LiveState) : LiveState :=
  if st.isRecording then st
  else if st.selectedMode ≠ some askMode then
    { st with messages := st.messages ++ [modeWarnMsg] }
  else if backendAvailable = false then
    { st with messages := st.messages ++ [unsupportedMsg] }
  else
    let st1 := resetSpeechState st
    { st1 with
      isRecording := true
      recognizerActive := true
      recordingBarVisible := true
      seconds := 0 }

/-- A tick of the 1-second interval registered by `startRecording`;
`captured` is the `currentSession` value held by the closure. -/

def liveTimerTick (captured : ℕ) (st : LiveState) : LiveState :=
  if st.isRecording = false ∨ captured ≠ st.speechSessionId then st
  else { st with seconds := st.seconds + 1 }

/-- Model of `recognizer.onresult` of the token-gated variant: when the gate passes,
rebuild the input text from every entry from `resultIndex` on. -/

def liveOnResult (captured : ℕ) (resultIndex : ℕ) (results : List (Bool × List Char))
    (st : LiveState) : LiveState :=
  if st.isRecording = false ∨ captured ≠ st.speechSessionId then st
  else { st with userInputValue := trimL (((results.drop resultIndex).map Prod.snd).flatten) }

/-- Model of `recognizer.onerror`: an unconditional `resetSpeechState`; the captured
session value is not consulted. -/

def liveOnError (_captured : ℕ) (st : LiveState) : LiveState := resetSpeechState st

/-- Model of `stopRecording` of the token-gated live variant. -/

def liveStopRecording (st : LiveState) : LiveState :=
  if st.isRecording = false then st
  else
    { st with
      isRecording := false
      recordingBarVisible := false
      voicePreviewVisible := true }

/-- Model of `sendVoice` of the token-gated live variant: posts the frozen text to
`/ask` unless it is empty. -/

def liveSendVoice (outcome : FetchOutcome) (st : LiveState) : LiveState :=
  if trimL st.userInputValue = [] then
    { st with messages := st.messages ++ [noSpeechWarnMsg] }
  else
    let finalText := trimL st.userInputValue
    let st1 := resetSpeechState st
    let st2 :=
      { st1 with
        messages := st1.messages ++ [finalText]
        fetchCount := st1.fetchCount + 1 }
    match outcome with
    | FetchOutcome.ok _ r => { st2 with messages := st2.messages ++ [r.getD noReplyMsg] }
    | FetchOutcome.fail => { st2 with messages := st2.messages ++ [serverErrorMsg] }

/-! ## Accumulating live-transcript session (first variant) -/

/-- Widget state of the first live-transcript variant, which accumulates
finalized text in `liveTranscript` and recomputes the display per event. -/

structure Accum1State where
  liveTranscript : List Char
  userInputValue : List Char
  isRecording : Bool
  recordingBarVisible : Bool
  voicePreviewVisible : Bool
deriving DecidableEq

/-- The `for` loop of `liveRecognizer.onresult`: walk the entries from the
resume index, appending final entries (plus a space) to `finalText` and
non-final entries to `interim`, in order. -/

def resultLoop (finalText interim : List Char) :
    List (Bool × List Char) → List Char × List Char
  | [] => (finalText, interim)
  | entry :: rest =>
      if entry.1 then resultLoop (finalText ++ entry.2 ++ [' ']) interim rest
      else resultLoop finalText (interim ++ entry.2) rest

/-- Model of `liveRecognizer.onresult` of the first variant:
`liveTranscript += finalText; userInput.value = (liveTranscript + interim).trim()`. -/

def accumOnResult (resultIndex : ℕ) (results : List (Bool × List Char))
    (st : Accum1State) : Accum1State :=
  let p := resultLoop [] [] (results.drop resultIndex)
  { st with
    liveTranscript := st.liveTranscript ++ p.1
    userInputValue := trimL (st.liveTranscript ++ p.1 ++ p.2) }

/-- Model of `stopRecording` of the first variant: freezes the field to the
committed transcript only when `liveTranscript` is non-empty (JS string
truthiness). -/

def accumStopRecording (st : Accum1State) : Accum1State :=
  if st.isRecording = false then st
  else
    let st1 := { st with isRecording := false, recordingBarVisible := false }
    let st2 :=
      if st1.liveTranscript = [] then st1
      else { st1 with userInputValue := trimL st1.liveTranscript }
    { st2 with voicePreviewVisible := true }

/-- Concatenation of the texts of the final entries of one result pass,
each followed by the separating space. -/

def finalsOf (rs : List (Bool × List Char)) : List Char :=
  (rs.map (fun r => if r.1 then r.2 ++ [' '] else [])).flatten

/-- Concatenation of the texts of the not-yet-final entries of one result
pass, in order. -/

def interimsOf (rs : List (Bool × List Char)) : List Char :=
  (rs.map (fun r => if r.1 then [] else r.2)).flatten

/-! ## Example states -/

/-- The byte buffer and the `Int16Array` buffer hold views of the same
converted samples, chunk for chunk — established by `startRecording` and
maintained by `onaudioprocess`, which pushes both views of one frame. -/
def buffersAgree (st : PcmState) : Prop :=
  st.pcmChunks = st.wavChunks.map (fun c => (c.map int16LEBytes).flatten)

/-- An idle widget state of the PCM variant, chat mode already "ask". -/
def pcmBase : PcmState :=
  { selectedMode := some askMode
    pcmChunks := []
    wavChunks := []
    seconds := 0
    timerActive := false
    micOpen := false
    recordingBarVisible := false
    voicePreviewVisible := false
    previewBytes := none
    messages := []
    fetchCount := 0
    sentPayloads := []
    uncaughtErrors := 0 }

/-- An idle widget state of the token-gated live variant. -/
def liveBase : LiveState :=
  { selectedMode := some askMode
    speechSessionId := 0
    isRecording := false
    recognizerActive := false
    userInputValue := []
    recordingBarVisible := false
    voicePreviewVisible := false
    seconds := 0
    messages := []
    fetchCount := 0 }

/-- A live-variant state in the middle of a recording session. -/
def liveRecordingState : LiveState :=
  { liveBase with
    isRecording := true
    recognizerActive := true
    recordingBarVisible := true
    userInputValue := ("hel").data }

/-- A fresh recording state of the accumulating first variant. -/
def accumBase : Accum1State :=
  { liveTranscript := []
    userInputValue := []
    isRecording := true
    recordingBarVisible := true
    voicePreviewVisible := false }

/-! ## Properties -/

theorem truncQ_le_of_le (q : ℚ) (n : ℤ) (h : q ≤ (n : ℚ)) : truncQ q ≤ n := by
  unfold truncQ
  split
  · exact le_trans (Int.floor_mono h) (le_of_eq (Int.floor_intCast n))
  · exact le_trans (Int.ceil_mono h) (le_of_eq (Int.ceil_intCast n))

theorem le_truncQ_of_le (q : ℚ) (n : ℤ) (h : (n : ℚ) ≤ q) : n ≤ truncQ q := by
  unfold truncQ
  split
  · exact le_trans (le_of_eq (Int.floor_intCast n).symm) (Int.floor_mono h)
  · exact le_trans (le_of_eq (Int.ceil_intCast n).symm) (Int.ceil_mono h)

theorem clampQ_mem (x : ℚ) : -1 ≤ clampQ x ∧ clampQ x ≤ 1 := by
  constructor
  · exact le_max_left _ _
  · exact max_le (by norm_num) (min_le_left _ _)

theorem specSample_range (x : ℚ) : -32767 ≤ specSample x ∧ specSample x ≤ 32767 := by
  obtain ⟨h1, h2⟩ := clampQ_mem x
  have hlo : ((-32767 : ℤ) : ℚ) ≤ clampQ x * 32767 := by
    push_cast
    nlinarith
  have hhi : clampQ x * 32767 ≤ ((32767 : ℤ) : ℚ) := by
    push_cast
    nlinarith
  exact ⟨le_truncQ_of_le _ _ hlo, truncQ_le_of_le _ _ hhi⟩

theorem pcmOfSample_eq_specSample (x : ℚ) : pcmOfSample x = specSample x := by
  obtain ⟨h1, h2⟩ := specSample_range x
  unfold pcmOfSample toInt16 specSample at *
  split <;> omega

theorem pcmOfSample_range (x : ℚ) : -32767 ≤ pcmOfSample x ∧ pcmOfSample x ≤ 32767 := by
  rw [pcmOfSample_eq_specSample]
  exact specSample_range x

theorem decode_int16LEBytes (v : ℤ) (h1 : -32768 ≤ v) (h2 : v < 32768) :
    decodeInt16LE ((v % 65536).toNat % 256) ((v % 65536).toNat / 256) = v := by
  unfold decodeInt16LE
  split <;> omega

theorem int16LEBytes_lt (v : ℤ) : ∀ b ∈ int16LEBytes v, b < 256 := by
  intro b hb
  have hlt : (v % 65536).toNat < 65536 := by omega
  simp only [int16LEBytes, List.mem_cons, List.not_mem_nil, or_false] at hb
  rcases hb with h | h <;> omega

theorem decodePcmBytes_cons (v : ℤ) (h1 : -32768 ≤ v) (h2 : v < 32768) (rest : List ℕ) :
    decodePcmBytes (int16LEBytes v ++ rest) = v :: decodePcmBytes rest := by
  unfold int16LEBytes
  rw [List.cons_append, List.cons_append, List.nil_append, decodePcmBytes]
  rw [decode_int16LEBytes v h1 h2]

theorem frameBytes_length (frame : List ℚ) : (frameBytes frame).length = 2 * frame.length := by
  unfold frameBytes
  rw [List.length_flatten]
  induction frame with
  | nil => rfl
  | cons x xs ih =>
    simp only [List.map_cons, List.sum_cons, ih, int16LEBytes, List.length_cons]
    simp [Nat.mul_succ, Nat.add_comm]

theorem frameBytes_lt (frame : List ℚ) : ∀ b ∈ frameBytes frame, b < 256 := by
  intro b hb
  unfold frameBytes at hb
  rw [List.mem_flatten] at hb
  obtain ⟨l, hl, hbl⟩ := hb
  rw [List.mem_map] at hl
  obtain ⟨v, _, hv⟩ := hl
  rw [← hv] at hbl
  exact int16LEBytes_lt v b hbl

theorem decodePcmBytes_frame (frame : List ℚ) (rest : List ℕ) :
    decodePcmBytes (frameBytes frame ++ rest) = frame.map pcmOfSample ++ decodePcmBytes rest := by
  induction frame with
  | nil => rfl
  | cons x xs ih =>
    obtain ⟨h1, h2⟩ := pcmOfSample_range x
    unfold frameBytes at *
    simp only [List.map_cons, List.flatten, List.append_assoc]
    rw [decodePcmBytes_cons (pcmOfSample x) (by omega) (by omega)]
    rw [ih, List.cons_append]

theorem b64Index_b64Char : ∀ n : ℕ, n < 64 → b64Index (b64Char n) = n := by decide

theorem b64Char_ne_pad : ∀ n : ℕ, n < 64 → b64Char n ≠ '=' := by decide

theorem b64Dec_btoaEnc : ∀ bs : List ℕ, (∀ b ∈ bs, b < 256) → b64Dec (btoaEnc bs) = bs
  | [] => fun _ => rfl
  | [b0] => fun h => by
    have hb0 : b0 < 256 := h b0 (by simp)
    have h0 : b0 / 4 < 64 := by omega
    have h1 : b0 % 4 * 16 < 64 := by omega
    simp only [btoaEnc, b64Dec]
    split
    · rw [b64Index_b64Char _ h0, b64Index_b64Char _ h1]
      simp only [List.cons.injEq, and_true]
      omega
    · rename_i hcond
      exact absurd (by trivial) hcond
  | [b0, b1] => fun h => by
    have hb0 : b0 < 256 := h b0 (by simp)
    have hb1 : b1 < 256 := h b1 (by simp)
    have h0 : b0 / 4 < 64 := by omega
    have h1 : b0 % 4 * 16 + b1 / 16 < 64 := by omega
    have h2 : b1 % 16 * 4 < 64 := by omega
    simp only [btoaEnc, b64Dec]
    rw [if_neg (b64Char_ne_pad _ h2)]
    split
    · rw [b64Index_b64Char _ h0, b64Index_b64Char _ h1, b64Index_b64Char _ h2]
      simp only [List.cons.injEq, and_true]
      constructor <;> omega
    · rename_i hcond
      exact absurd (by trivial) hcond
  | b0 :: b1 :: b2 :: rest => fun h => by
    have hb0 : b0 < 256 := h b0 (by simp)
    have hb1 : b1 < 256 := h b1 (by simp)
    have hb2 : b2 < 256 := h b2 (by simp)
    have hrest : ∀ b ∈ rest, b < 256 := fun b hb => h b (by simp [List.mem_cons] at hb ⊢; tauto)
    have ih := b64Dec_btoaEnc rest hrest
    have h0 : b0 / 4 < 64 := by omega
    have h1 : b0 % 4 * 16 + b1 / 16 < 64 := by omega
    have h2 : b1 % 16 * 4 + b2 / 64 < 64 := by omega
    have h3 : b2 % 64 < 64 := by omega
    simp only [btoaEnc, b64Dec]
    rw [if_neg (b64Char_ne_pad _ h2), if_neg (b64Char_ne_pad _ h3)]
    rw [b64Index_b64Char _ h0, b64Index_b64Char _ h1, b64Index_b64Char _ h2,
      b64Index_b64Char _ h3, ih]
    simp only [List.cons.injEq, and_true]
    refine ⟨by omega, by omega, by omega⟩

theorem chunkedRuns_eq_self (csz : ℕ) (h : 0 < csz) (l : List ℕ) : chunkedRuns csz l = l := by
  induction' hn : l.length using Nat.strong_induction_on with n ih generalizing l
  · subst hn
    unfold chunkedRuns
    split
    · rename_i hc
      rcases hc with hc | hc
      · omega
      · rw [hc]
    · rename_i hc
      have hl : l ≠ [] := fun he => hc (Or.inr he)
      have hlen : 0 < l.length := List.length_pos.mpr hl
      rw [ih (l.drop csz).length (by rw [List.length_drop]; omega) (l.drop csz) rfl]
      exact List.take_append_drop csz l

theorem uint8ToBase64With_eq (csz : ℕ) (h : 0 < csz) (u8 : List ℕ) :
    uint8ToBase64With csz u8 = btoaEnc u8 := by
  unfold uint8ToBase64With
  rw [chunkedRuns_eq_self csz h u8]

theorem riffTag_bytes : writeStringBytes riffTag = [82, 73, 70, 70] := by decide

theorem waveTag_bytes : writeStringBytes waveTag = [87, 65, 86, 69, 102, 109, 116, 32] := by
  decide

theorem dataTag_bytes : writeStringBytes dataTag = [100, 97, 116, 97] := by decide

theorem intChunkBytes_length (c : List ℤ) : ((c.map int16LEBytes).flatten).length = 2 * c.length := by
  induction c with
  | nil => rfl
  | cons v vs ih =>
    simp only [List.map_cons, List.flatten_cons, List.length_append, ih, int16LEBytes,
      List.length_cons]
    simp [Nat.mul_succ, Nat.add_comm]

theorem wavDataBytes_length (chunks : List (List ℤ)) :
    (wavDataBytes chunks).length = (chunks.map List.length).sum * 2 := by
  unfold wavDataBytes
  induction chunks with
  | nil => rfl
  | cons c cs ih =>
    simp only [List.map_cons, List.flatten_cons, List.length_append, ih, List.sum_cons,
      intChunkBytes_length]
    ring

theorem createWavBlob_length (chunks : List (List ℤ)) (r : ℕ) :
    (createWavBlob chunks r).length = 44 + (chunks.map List.length).sum * 2 := by
  simp [createWavBlob, riffTag_bytes, waveTag_bytes, dataTag_bytes, u32LE, u16LE,
    wavDataBytes_length]
  ring

theorem createWavBlob_chunkSizeField (chunks : List (List ℤ)) (r : ℕ)
    (h : 36 + (chunks.map List.length).sum * 2 < 4294967296) :
    u32At (createWavBlob chunks r) 4 = 36 + (chunks.map List.length).sum * 2 := by
  simp [createWavBlob, riffTag_bytes, waveTag_bytes, dataTag_bytes, u32LE, u16LE, u32At]
  omega

theorem createWavBlob_subchunk2Field (chunks : List (List ℤ)) (r : ℕ)
    (h : (chunks.map List.length).sum * 2 < 4294967296) :
    u32At (createWavBlob chunks r) 40 = (chunks.map List.length).sum * 2 := by
  simp [createWavBlob, riffTag_bytes, waveTag_bytes, dataTag_bytes, u32LE, u16LE, u32At]
  omega

theorem createWavBlob_formatTag (chunks : List (List ℤ)) (r : ℕ) :
    u16At (createWavBlob chunks r) 20 = 1 := by
  simp [createWavBlob, riffTag_bytes, waveTag_bytes, dataTag_bytes, u32LE, u16LE, u16At]

theorem createWavBlob_channels (chunks : List (List ℤ)) (r : ℕ) :
    u16At (createWavBlob chunks r) 22 = 1 := by
  simp [createWavBlob, riffTag_bytes, waveTag_bytes, dataTag_bytes, u32LE, u16LE, u16At]

theorem createWavBlob_sampleRateField (chunks : List (List ℤ)) (r : ℕ)
    (h : r < 4294967296) : u32At (createWavBlob chunks r) 24 = r := by
  simp [createWavBlob, riffTag_bytes, waveTag_bytes, dataTag_bytes, u32LE, u16LE, u32At]
  omega

theorem createWavBlob_byteRate (chunks : List (List ℤ)) (r : ℕ)
    (h : r * 2 < 4294967296) : u32At (createWavBlob chunks r) 28 = r * 2 := by
  simp [createWavBlob, riffTag_bytes, waveTag_bytes, dataTag_bytes, u32LE, u16LE, u32At]
  omega

theorem createWavBlob_blockAlign (chunks : List (List ℤ)) (r : ℕ) :
    u16At (createWavBlob chunks r) 32 = 2 := by
  simp [createWavBlob, riffTag_bytes, waveTag_bytes, dataTag_bytes, u32LE, u16LE, u16At]

theorem createWavBlob_bitsPerSample (chunks : List (List ℤ)) (r : ℕ) :
    u16At (createWavBlob chunks r) 34 = 16 := by
  simp [createWavBlob, riffTag_bytes, waveTag_bytes, dataTag_bytes, u32LE, u16LE, u16At]

theorem createWavBlob_dataSection (chunks : List (List ℤ)) (r : ℕ) :
    (createWavBlob chunks r).drop 44 = wavDataBytes chunks := by
  simp [createWavBlob, riffTag_bytes, waveTag_bytes, dataTag_bytes, u32LE, u16LE]

theorem createWavBlob_riffMark (chunks : List (List ℤ)) (r : ℕ) :
    (createWavBlob chunks r).take 4 = writeStringBytes riffTag := by
  simp [createWavBlob, riffTag_bytes, waveTag_bytes, dataTag_bytes, u32LE, u16LE]

theorem createWavBlob_dataMark (chunks : List (List ℤ)) (r : ℕ) :
    ((createWavBlob chunks r).drop 36).take 4 = writeStringBytes dataTag := by
  simp [createWavBlob, riffTag_bytes, waveTag_bytes, dataTag_bytes, u32LE, u16LE]

theorem intChunkBytes_lt (c : List ℤ) : ∀ b ∈ (c.map int16LEBytes).flatten, b < 256 := by
  intro b hb
  rw [List.mem_flatten] at hb
  obtain ⟨l, hl, hbl⟩ := hb
  rw [List.mem_map] at hl
  obtain ⟨v, _, hv⟩ := hl
  rw [← hv] at hbl
  exact int16LEBytes_lt v b hbl

theorem runFrames_pcmChunks (frames : List (List ℚ)) (st : PcmState) :
    (runFrames frames st).pcmChunks = st.pcmChunks ++ frames.map frameBytes := by
  induction frames generalizing st with
  | nil => simp [runFrames]
  | cons f fs ih =>
    simp only [runFrames, List.foldl_cons, List.map_cons]
    rw [show (List.foldl (fun s g => pcmOnAudioProcess g s) (pcmOnAudioProcess f st) fs) =
      runFrames fs (pcmOnAudioProcess f st) from rfl, ih]
    simp [pcmOnAudioProcess]

theorem runFrames_wavChunks (frames : List (List ℚ)) (st : PcmState) :
    (runFrames frames st).wavChunks = st.wavChunks ++ frames.map frameInts := by
  induction frames generalizing st with
  | nil => simp [runFrames]
  | cons f fs ih =>
    simp only [runFrames, List.foldl_cons, List.map_cons]
    rw [show (List.foldl (fun s g => pcmOnAudioProcess g s) (pcmOnAudioProcess f st) fs) =
      runFrames fs (pcmOnAudioProcess f st) from rfl, ih]
    simp [pcmOnAudioProcess]

theorem mergeFrames_length (frames : List (List ℚ)) :
    (mergeChunks (frames.map frameBytes)).length = 2 * (frames.map List.length).sum := by
  unfold mergeChunks
  induction frames with
  | nil => rfl
  | cons f fs ih =>
    simp only [List.map_cons, List.flatten_cons, List.length_append, ih, List.sum_cons,
      frameBytes_length]
    ring

theorem decode_mergeFrames (frames : List (List ℚ)) :
    decodePcmBytes (mergeChunks (frames.map frameBytes)) = frames.flatten.map pcmOfSample := by
  unfold mergeChunks
  induction frames with
  | nil => rfl
  | cons f fs ih =>
    simp only [List.map_cons, List.flatten_cons]
    rw [decodePcmBytes_frame, ih, ← List.map_append]

theorem resultLoop_eq (rs : List (Bool × List Char)) :
    ∀ finalText interim, resultLoop finalText interim rs =
      (finalText ++ finalsOf rs, interim ++ interimsOf rs) := by
  induction rs with
  | nil => intro f i; simp [resultLoop, finalsOf, interimsOf]
  | cons entry rest ih =>
    intro f i
    obtain ⟨isFin, txt⟩ := entry
    unfold resultLoop finalsOf interimsOf
    cases isFin with
    | true =>
      simp only [if_pos rfl, ih]
      unfold finalsOf interimsOf
      simp [List.append_assoc]
    | false =>
      simp only [ih]
      unfold finalsOf interimsOf
      simp [List.append_assoc]

/-! ## Claims -/

/-- C2: for every sequence of audio frames whose samples lie in `[-1, 1]`,
the `onaudioprocess` conversion is `clamp(x, -1, 1) * 32767` truncated
toward zero to a signed 16-bit integer; appending the frames and merging
the chunks (`sendVoice`) yields exactly `2 * sampleCount` bytes, and
decoding those bytes back to little-endian signed 16-bit integers
reproduces the saturate-and-truncate values bit-for-bit, in arrival
order. -/
theorem c2_append_merge_roundtrip (frames : List (List ℚ)) (st : PcmState)
    (hempty : st.pcmChunks = [])
    (hrange : ∀ f ∈ frames, ∀ x ∈ f, -1 ≤ x ∧ x ≤ 1) :
    (mergeChunks (runFrames frames st).pcmChunks).length =
      2 * (frames.map List.length).sum ∧
    decodePcmBytes (mergeChunks (runFrames frames st).pcmChunks) =
      frames.flatten.map specSample := by
  have hpcm : (runFrames frames st).pcmChunks = frames.map frameBytes := by
    rw [runFrames_pcmChunks, hempty, List.nil_append]
  have hmap : pcmOfSample = specSample := funext pcmOfSample_eq_specSample
  rw [hpcm, mergeFrames_length, decode_mergeFrames, hmap]
  exact ⟨rfl, rfl⟩

theorem c2_append_merge_roundtrip_witness :
    pcmBase.pcmChunks = [] ∧
    (∀ f ∈ [[(1 : ℚ)/2, -1/3], [0]], ∀ x ∈ f, -1 ≤ x ∧ x ≤ 1) ∧
    ((mergeChunks (runFrames [[(1 : ℚ)/2, -1/3], [0]] pcmBase).pcmChunks).length =
        2 * (([[(1 : ℚ)/2, -1/3], [0]].map List.length).sum) ∧
      decodePcmBytes (mergeChunks (runFrames [[(1 : ℚ)/2, -1/3], [0]] pcmBase).pcmChunks) =
        ([[(1 : ℚ)/2, -1/3], [0]].flatten.map specSample)) :=
  ⟨rfl, by intro f hf x hx; fin_cases hf <;> fin_cases hx <;> norm_num,
    c2_append_merge_roundtrip _ pcmBase rfl
      (by intro f hf x hx; fin_cases hf <;> fin_cases hx <;> norm_num)⟩

/-- C3: `createWavBlob` is a pure deterministic function of
`(chunks, sampleRate)` producing the §3 byte layout: total length
`44 + dataBytes`, ChunkSize field (bytes 4-7) `36 + dataBytes`,
Subchunk2Size field (bytes 40-43) `dataBytes`, format tag 1, channel
count 1, byte rate `sampleRate * 2`, block align 2, bits per sample 16,
followed by the PCM samples little-endian in chunk order; all header
fields are written for any chunk list, including `dataBytes = 0`. -/
theorem c3_wav_layout (chunks : List (List ℤ)) (r : ℕ)
    (h32 : 36 + (chunks.map List.length).sum * 2 < 4294967296)
    (hr : r * 2 < 4294967296) :
    createWavBlob chunks r = createWavBlob chunks r ∧
    (createWavBlob chunks r).length = 44 + (chunks.map List.length).sum * 2 ∧
    u32At (createWavBlob chunks r) 4 = 36 + (chunks.map List.length).sum * 2 ∧
    u32At (createWavBlob chunks r) 40 = (chunks.map List.length).sum * 2 ∧
    u16At (createWavBlob chunks r) 20 = 1 ∧
    u16At (createWavBlob chunks r) 22 = 1 ∧
    u32At (createWavBlob chunks r) 28 = r * 2 ∧
    u16At (createWavBlob chunks r) 32 = 2 ∧
    u16At (createWavBlob chunks r) 34 = 16 ∧
    (createWavBlob chunks r).drop 44 = wavDataBytes chunks :=
  ⟨rfl, createWavBlob_length chunks r, createWavBlob_chunkSizeField chunks r h32,
    createWavBlob_subchunk2Field chunks r (by omega),
    createWavBlob_formatTag chunks r, createWavBlob_channels chunks r,
    createWavBlob_byteRate chunks r hr, createWavBlob_blockAlign chunks r,
    createWavBlob_bitsPerSample chunks r, createWavBlob_dataSection chunks r⟩

theorem c3_wav_layout_witness :
    (36 + (([] : List (List ℤ)).map List.length).sum * 2 < 4294967296) ∧
    (16000 * 2 < 4294967296) ∧
    (createWavBlob ([] : List (List ℤ)) 16000 = createWavBlob [] 16000 ∧
      (createWavBlob ([] : List (List ℤ)) 16000).length =
        44 + (([] : List (List ℤ)).map List.length).sum * 2 ∧
      u32At (createWavBlob ([] : List (List ℤ)) 16000) 4 =
        36 + (([] : List (List ℤ)).map List.length).sum * 2 ∧
      u32At (createWavBlob ([] : List (List ℤ)) 16000) 40 =
        (([] : List (List ℤ)).map List.length).sum * 2 ∧
      u16At (createWavBlob ([] : List (List ℤ)) 16000) 20 = 1 ∧
      u16At (createWavBlob ([] : List (List ℤ)) 16000) 22 = 1 ∧
      u32At (createWavBlob ([] : List (List ℤ)) 16000) 28 = 16000 * 2 ∧
      u16At (createWavBlob ([] : List (List ℤ)) 16000) 32 = 2 ∧
      u16At (createWavBlob ([] : List (List ℤ)) 16000) 34 = 16 ∧
      (createWavBlob ([] : List (List ℤ)) 16000).drop 44 = wavDataBytes []) :=
  ⟨by norm_num, by norm_num, c3_wav_layout [] 16000 (by norm_num) (by norm_num)⟩

/-- C4: for every binary byte buffer and every positive slice size, the
transport encoder's output is byte-for-byte the Base64 encoding of the
whole buffer at once — independent of the slice size, and in particular
equal to the source's encoder output with its 32 KiB slices — and standard
Base64 decoding of the encoder's output reproduces the buffer exactly. -/
theorem c4_base64_roundtrip (u8 : List ℕ) (csz : ℕ) (hc : 0 < csz)
    (hb : ∀ b ∈ u8, b < 256) :
    uint8ToBase64With csz u8 = btoaEnc u8 ∧
    uint8ToBase64 u8 = btoaEnc u8 ∧
    b64Dec (uint8ToBase64 u8) = u8 := by
  have h2 : uint8ToBase64 u8 = btoaEnc u8 := uint8ToBase64With_eq 32768 (by norm_num) u8
  exact ⟨uint8ToBase64With_eq csz hc u8, h2, by rw [h2]; exact b64Dec_btoaEnc u8 hb⟩

theorem c4_base64_roundtrip_witness :
    (0 < 3) ∧ (∀ b ∈ [0, 127, 255, 10], b < 256) ∧
    (uint8ToBase64With 3 [0, 127, 255, 10] = btoaEnc [0, 127, 255, 10] ∧
      uint8ToBase64 [0, 127, 255, 10] = btoaEnc [0, 127, 255, 10] ∧
      b64Dec (uint8ToBase64 [0, 127, 255, 10]) = [0, 127, 255, 10]) :=
  ⟨by norm_num, by decide, c4_base64_roundtrip [0, 127, 255, 10] 3 (by norm_num) (by decide)⟩

/-- C6: when `sendVoice` runs on a non-empty buffer then, whatever the
network outcome, the session is cleared through the same
`discardRecording` path as cancel — both frame buffers emptied, preview
hidden — exactly one network call is made (no retry), and on failure
exactly one user-visible failure message is added after the progress
notice. -/
theorem c6_send_clears_session (outcome : FetchOutcome) (st : PcmState)
    (h : st.pcmChunks ≠ []) :
    (sendVoice outcome st).pcmChunks = [] ∧
    (sendVoice outcome st).wavChunks = [] ∧
    (sendVoice outcome st).voicePreviewVisible = false ∧
    (sendVoice outcome st).fetchCount = st.fetchCount + 1 ∧
    (∃ mid, sendVoice outcome st = discardRecording mid) ∧
    (outcome = FetchOutcome.fail →
      (sendVoice outcome st).messages = st.messages ++ [processingMsg, sendFailMsg]) := by
  have emid : ∃ mid, sendVoice outcome st = discardRecording mid := by
    unfold sendVoice
    rw [if_neg h]
    cases outcome <;> exact ⟨_, rfl⟩
  cases outcome with
  | ok t r =>
    refine ⟨?_, ?_, ?_, ?_, emid, by intro hc; cases hc⟩ <;>
      simp [sendVoice, if_neg h, discardRecording]
  | fail =>
    refine ⟨?_, ?_, ?_, ?_, emid, fun _ => ?_⟩ <;>
      simp [sendVoice, if_neg h, discardRecording]

theorem c6_send_clears_session_witness :
    ({ pcmBase with pcmChunks := [[0, 0]] } : PcmState).pcmChunks ≠ [] ∧
    ((sendVoice FetchOutcome.fail { pcmBase with pcmChunks := [[0, 0]] }).pcmChunks = [] ∧
      (sendVoice FetchOutcome.fail { pcmBase with pcmChunks := [[0, 0]] }).wavChunks = [] ∧
      (sendVoice FetchOutcome.fail { pcmBase with pcmChunks := [[0, 0]] }).voicePreviewVisible
        = false ∧
      (sendVoice FetchOutcome.fail { pcmBase with pcmChunks := [[0, 0]] }).fetchCount =
        ({ pcmBase with pcmChunks := [[0, 0]] } : PcmState).fetchCount + 1 ∧
      (∃ mid, sendVoice FetchOutcome.fail { pcmBase with pcmChunks := [[0, 0]] } =
        discardRecording mid) ∧
      (FetchOutcome.fail = FetchOutcome.fail →
        (sendVoice FetchOutcome.fail { pcmBase with pcmChunks := [[0, 0]] }).messages =
          ({ pcmBase with pcmChunks := [[0, 0]] } : PcmState).messages ++
            [processingMsg, sendFailMsg])) :=
  ⟨by decide, c6_send_clears_session FetchOutcome.fail _ (by decide)⟩

/-- C7: `sendVoice` on a session with zero recorded chunks shows the
empty-recording warning, issues no network request and performs no other
state change; the live variant's `sendVoice` behaves the same on an empty
transcript. -/
theorem c7_send_empty_refused (outcome : FetchOutcome) (st : PcmState)
    (h : st.pcmChunks = []) (stL : LiveState) (hL : trimL stL.userInputValue = []) :
    sendVoice outcome st = { st with messages := st.messages ++ [noSoundWarnMsg] } ∧
    (sendVoice outcome st).fetchCount = st.fetchCount ∧
    (sendVoice outcome st).pcmChunks = st.pcmChunks ∧
    (sendVoice outcome st).sentPayloads = st.sentPayloads ∧
    liveSendVoice outcome stL = { stL with messages := stL.messages ++ [noSpeechWarnMsg] } ∧
    (liveSendVoice outcome stL).fetchCount = stL.fetchCount := by
  have e1 : sendVoice outcome st = { st with messages := st.messages ++ [noSoundWarnMsg] } := by
    unfold sendVoice
    rw [if_pos h]
  have e2 : liveSendVoice outcome stL =
      { stL with messages := stL.messages ++ [noSpeechWarnMsg] } := by
    unfold liveSendVoice
    rw [if_pos hL]
  exact ⟨e1, by rw [e1], by rw [e1], by rw [e1], e2, by rw [e2]⟩

theorem c7_send_empty_refused_witness :
    pcmBase.pcmChunks = [] ∧ trimL liveBase.userInputValue = [] ∧
    (sendVoice FetchOutcome.fail pcmBase =
        { pcmBase with messages := pcmBase.messages ++ [noSoundWarnMsg] } ∧
      (sendVoice FetchOutcome.fail pcmBase).fetchCount = pcmBase.fetchCount ∧
      (sendVoice FetchOutcome.fail pcmBase).pcmChunks = pcmBase.pcmChunks ∧
      (sendVoice FetchOutcome.fail pcmBase).sentPayloads = pcmBase.sentPayloads ∧
      liveSendVoice FetchOutcome.fail liveBase =
        { liveBase with messages := liveBase.messages ++ [noSpeechWarnMsg] } ∧
      (liveSendVoice FetchOutcome.fail liveBase).fetchCount = liveBase.fetchCount) :=
  ⟨rfl, rfl, c7_send_empty_refused FetchOutcome.fail pcmBase rfl liveBase rfl⟩

/-- C10: under the buffer-view invariant — established by `startRecording`
and preserved by every `onaudioprocess` callback, which stores one frame
simultaneously as a byte view and an `Int16Array` view of the same
converted samples — Base64-decoding the `audio` field that `sendVoice`
posts to `/speech-chat` yields exactly the data section (bytes 44 onward)
of the WAV preview container built from the same recording. -/
theorem c10_transport_matches_preview (st : PcmState) (frame : List ℚ) (a : Bool)
    (h : buffersAgree st) :
    buffersAgree (pcmOnAudioProcess frame st) ∧
    buffersAgree (pcmStartRecording a st) ∧
    b64Dec (uint8ToBase64 (mergeChunks st.pcmChunks)) =
      (createWavBlob st.wavChunks 16000).drop 44 := by
  refine ⟨?_, ?_, ?_⟩
  · unfold buffersAgree pcmOnAudioProcess at *
    simp only [List.map_append, List.map_cons, List.map_nil]
    rw [h]
    rfl
  · unfold buffersAgree pcmStartRecording at *
    split
    · exact h
    · split
      · exact h
      · rfl
  · have hb : ∀ b ∈ mergeChunks st.pcmChunks, b < 256 := by
      intro b hmem
      unfold buffersAgree at h
      unfold mergeChunks at hmem
      rw [h, List.mem_flatten] at hmem
      obtain ⟨l, hl, hbl⟩ := hmem
      rw [List.mem_map] at hl
      obtain ⟨c, _, hc⟩ := hl
      rw [← hc] at hbl
      exact intChunkBytes_lt c b hbl
    have henc : uint8ToBase64 (mergeChunks st.pcmChunks) =
        btoaEnc (mergeChunks st.pcmChunks) :=
      uint8ToBase64With_eq 32768 (by norm_num) _
    rw [createWavBlob_dataSection, henc, b64Dec_btoaEnc _ hb]
    unfold buffersAgree at h
    rw [h]
    rfl

theorem c10_transport_matches_preview_witness :
    buffersAgree { pcmBase with pcmChunks := [[0, 0]], wavChunks := [[0]] } ∧
    (buffersAgree (pcmOnAudioProcess [0]
        { pcmBase with pcmChunks := [[0, 0]], wavChunks := [[0]] }) ∧
      buffersAgree (pcmStartRecording true
        { pcmBase with pcmChunks := [[0, 0]], wavChunks := [[0]] }) ∧
      b64Dec (uint8ToBase64 (mergeChunks
          ({ pcmBase with pcmChunks := [[0, 0]], wavChunks := [[0]] } : PcmState).pcmChunks)) =
        (createWavBlob
          ({ pcmBase with pcmChunks := [[0, 0]], wavChunks := [[0]] } : PcmState).wavChunks
          16000).drop 44) :=
  ⟨by unfold buffersAgree; decide,
    c10_transport_matches_preview _ [0] true (by unfold buffersAgree; decide)⟩

/-- C1 as stated is false: the PCM recording path has no token gate at all
— an audio-process callback left over from a superseded session appends to
the freshly started session's buffers — and even in the token-gated live
variant the recognizer error callback ignores its captured token and
resets the live session it does not belong to. -/
theorem c1_counterexample :
    (pcmOnAudioProcess [0] (pcmStartRecording true pcmBase)).pcmChunks ≠
      (pcmStartRecording true pcmBase).pcmChunks ∧
    liveOnError liveBase.speechSessionId (liveStartRecording true liveBase) ≠
      liveStartRecording true liveBase := by
  constructor <;> decide

/-- C1 amended: in the token-gated live-transcript variant, the recognizer
result callback and the timer tick capture the session token at
registration time and are no-ops whenever the captured token differs from
the live token, so stale result and tick callbacks leave a newly started
session's buffers, displayed text and timer unchanged.  The recognizer
error callback and the whole PCM recording path carry no such gate. -/
theorem c1_token_gate (captured idx : ℕ) (results : List (Bool × List Char))
    (st : LiveState) (h : captured ≠ st.speechSessionId) :
    liveOnResult captured idx results st = st ∧ liveTimerTick captured st = st := by
  constructor
  · unfold liveOnResult
    rw [if_pos (Or.inr h)]
  · unfold liveTimerTick
    rw [if_pos (Or.inr h)]

theorem c1_token_gate_witness :
    (0 ≠ (liveStartRecording true liveBase).speechSessionId) ∧
    (liveOnResult 0 0 [(false, ("x").data)] (liveStartRecording true liveBase) =
        liveStartRecording true liveBase ∧
      liveTimerTick 0 (liveStartRecording true liveBase) =
        liveStartRecording true liveBase) :=
  ⟨by decide, c1_token_gate 0 0 [(false, ("x").data)] (liveStartRecording true liveBase)
    (by decide)⟩

/-- C9 as stated is false: `startRecording` of the live-transcript variant
begins with an `isRecording` guard, so calling it while already recording
is a strict no-op — the token is not bumped and the running recognizer is
not torn down — not a forced hard reset. -/
theorem c9_counterexample :
    liveRecordingState.isRecording = true ∧
    liveStartRecording true liveRecordingState = liveRecordingState ∧
    (liveStartRecording true liveRecordingState).speechSessionId =
      liveRecordingState.speechSessionId := by
  refine ⟨rfl, ?_, ?_⟩ <;> decide

/-- C9 amended: `startRecording` of the live-transcript variant is a no-op
while a session is already recording; from every non-recording state
(Previewing included) it forces a hard reset first — incrementing the
session token, clearing the input, hiding bar and preview — and then opens
a fresh recognizer with a timer starting at zero. -/
theorem c9_forced_reset (a : Bool) (st : LiveState) :
    (st.isRecording = true → liveStartRecording a st = st) ∧
    (st.isRecording = false → st.selectedMode = some askMode → a = true →
      (liveStartRecording a st).speechSessionId = st.speechSessionId + 1 ∧
      (liveStartRecording a st).isRecording = true ∧
      (liveStartRecording a st).recognizerActive = true ∧
      (liveStartRecording a st).userInputValue = [] ∧
      (liveStartRecording a st).voicePreviewVisible = false ∧
      (liveStartRecording a st).seconds = 0) := by
  constructor
  · intro hrec
    unfold liveStartRecording
    rw [if_pos hrec]
  · intro h1 h2 h3
    subst h3
    simp [liveStartRecording, h1, h2, resetSpeechState]

theorem c9_forced_reset_witness :
    liveRecordingState.isRecording = true ∧
    liveStartRecording true liveRecordingState = liveRecordingState ∧
    liveBase.isRecording = false ∧
    ((liveStartRecording true liveBase).speechSessionId = liveBase.speechSessionId + 1 ∧
      (liveStartRecording true liveBase).isRecording = true ∧
      (liveStartRecording true liveBase).recognizerActive = true ∧
      (liveStartRecording true liveBase).userInputValue = [] ∧
      (liveStartRecording true liveBase).voicePreviewVisible = false ∧
      (liveStartRecording true liveBase).seconds = 0) :=
  ⟨rfl, (c9_forced_reset true liveRecordingState).1 rfl, rfl,
    (c9_forced_reset true liveBase).2 rfl rfl rfl⟩

/-- C5 as stated is false on two points: within one result pass the
not-yet-final entries are concatenated (`interim += txt`), so with two
partial entries the pending text is their concatenation, not the last
entry alone; and `stopRecording` freezes the field only when some final
text has been committed (JS truthiness of `liveTranscript`) — with an
empty committed transcript the displayed partial guess survives
`stop()`. -/
theorem c5_counterexample :
    (accumOnResult 0 [(false, ("a").data), (false, ("b").data)] accumBase).userInputValue =
      ("ab").data ∧
    (accumOnResult 0 [(false, ("a").data), (false, ("b").data)] accumBase).userInputValue ≠
      ("b").data ∧
    (accumStopRecording { accumBase with userInputValue := ("hel").data }).userInputValue =
      ("hel").data ∧
    (accumStopRecording { accumBase with userInputValue := ("hel").data }).userInputValue ≠
      trimL ({ accumBase with userInputValue := ("hel").data } : Accum1State).liveTranscript := by
  refine ⟨?_, ?_, ?_, ?_⟩ <;> decide

/-- C5 amended: in the accumulator variant, each result pass appends the
final entries' texts — each with a separating space — to the committed
transcript, which is never rewritten (also not by `stop()`); the
concatenation of the pass's not-yet-final entries, in order, replaces the
pending text entirely (pending never accumulates across events); the
displayed value is committed plus pending, trimmed; and `stopRecording`
discards pending and freezes the field to the committed transcript,
trimmed, whenever committed text exists — with no committed text the
displayed value, possibly a partial guess, is left unchanged. -/
theorem c5_accumulator (idx : ℕ) (results : List (Bool × List Char)) (st : Accum1State) :
    (accumOnResult idx results st).liveTranscript =
      st.liveTranscript ++ finalsOf (results.drop idx) ∧
    (accumOnResult idx results st).userInputValue =
      trimL (st.liveTranscript ++ finalsOf (results.drop idx) ++
        interimsOf (results.drop idx)) ∧
    (st.isRecording = true → st.liveTranscript ≠ [] →
      (accumStopRecording st).userInputValue = trimL st.liveTranscript) ∧
    (st.isRecording = true → st.liveTranscript = [] →
      (accumStopRecording st).userInputValue = st.userInputValue) ∧
    (accumStopRecording st).liveTranscript = st.liveTranscript := by
  refine ⟨?_, ?_, ?_, ?_, ?_⟩
  · simp [accumOnResult, resultLoop_eq]
  · simp [accumOnResult, resultLoop_eq]
  · intro h1 h2
    simp [accumStopRecording, h1, h2]
  · intro h1 h2
    simp [accumStopRecording, h1, h2]
  · unfold accumStopRecording
    split
    · rfl
    · dsimp only
      split <;> rfl

theorem c5_accumulator_witness :
    ({ accumBase with liveTranscript := ("hello ").data } : Accum1State).isRecording = true ∧
    ({ accumBase with liveTranscript := ("hello ").data } : Accum1State).liveTranscript ≠ [] ∧
    (accumOnResult 0 [(true, ("hello").data)] accumBase).liveTranscript =
      accumBase.liveTranscript ++ finalsOf ([(true, ("hello").data)].drop 0) ∧
    (accumStopRecording { accumBase with liveTranscript := ("hello ").data }).userInputValue =
      trimL ({ accumBase with liveTranscript := ("hello ").data } : Accum1State).liveTranscript :=
  ⟨rfl, by decide, (c5_accumulator 0 [(true, ("hello").data)] accumBase).1,
    (c5_accumulator 0 [] { accumBase with liveTranscript := ("hello ").data }).2.2.1
      rfl (by decide)⟩

/-- C8 as stated is false for the PCM variant: with the capture backend
unavailable, `startRecording` passes the mode check and then throws at the
`await navigator.mediaDevices.getUserMedia(...)` — the rejection escapes
unhandled and no user-visible `UnsupportedError` message is produced,
unlike the claimed graceful failure. -/
theorem c8_counterexample :
    (pcmStartRecording false pcmBase).messages = pcmBase.messages ∧
    (pcmStartRecording false pcmBase).uncaughtErrors = pcmBase.uncaughtErrors + 1 := by
  constructor <;> decide

/-- C8 amended: in the live-transcript variant `startRecording` checks its
preconditions before any state change — a mode flag other than "ask"
fails with the mode warning and only that message; an unavailable backend
fails with the unsupported warning and only that message; only on success
does it increment the token, reset the input, open the recognizer and
start the timer at zero.  The PCM variant checks and surfaces only the
mode precondition; it has no session token and no availability check — an
unavailable backend aborts with an uncaught rejection after the mode
check, changing no buffer or UI state but also showing no message. -/
theorem c8_start_preconditions (a : Bool) (st : LiveState) (stP : PcmState) :
    (st.isRecording = false → st.selectedMode ≠ some askMode →
      liveStartRecording a st = { st with messages := st.messages ++ [modeWarnMsg] }) ∧
    (st.isRecording = false → st.selectedMode = some askMode → a = false →
      liveStartRecording a st = { st with messages := st.messages ++ [unsupportedMsg] }) ∧
    (st.isRecording = false → st.selectedMode = some askMode → a = true →
      (liveStartRecording a st).speechSessionId = st.speechSessionId + 1 ∧
      (liveStartRecording a st).isRecording = true ∧
      (liveStartRecording a st).recognizerActive = true ∧
      (liveStartRecording a st).userInputValue = [] ∧
      (liveStartRecording a st).seconds = 0) ∧
    (stP.selectedMode ≠ some askMode →
      pcmStartRecording a stP = { stP with messages := stP.messages ++ [modeWarnMsg] }) ∧
    (stP.selectedMode = some askMode → a = false →
      pcmStartRecording a stP = { stP with uncaughtErrors := stP.uncaughtErrors + 1 }) ∧
    (stP.selectedMode = some askMode → a = true →
      (pcmStartRecording a stP).pcmChunks = [] ∧
      (pcmStartRecording a stP).wavChunks = [] ∧
      (pcmStartRecording a stP).seconds = 0 ∧
      (pcmStartRecording a stP).timerActive = true ∧
      (pcmStartRecording a stP).micOpen = true) := by
  refine ⟨?_, ?_, ?_, ?_, ?_, ?_⟩
  · intro h1 h2
    simp [liveStartRecording, h1, h2]
  · intro h1 h2 h3
    subst h3
    simp [liveStartRecording, h1, h2]
  · intro h1 h2 h3
    subst h3
    simp [liveStartRecording, h1, h2, resetSpeechState]
  · intro h1
    simp [pcmStartRecording, h1]
  · intro h1 h2
    subst h2
    simp [pcmStartRecording, h1]
  · intro h1 h2
    subst h2
    simp [pcmStartRecording, h1]

theorem c8_start_preconditions_witness :
    liveBase.isRecording = false ∧ liveBase.selectedMode = some askMode ∧
    pcmBase.selectedMode = some askMode ∧
    ((liveStartRecording true liveBase).speechSessionId = liveBase.speechSessionId + 1 ∧
      (liveStartRecording true liveBase).isRecording = true ∧
      (liveStartRecording true liveBase).recognizerActive = true ∧
      (liveStartRecording true liveBase).userInputValue = [] ∧
      (liveStartRecording true liveBase).seconds = 0) ∧
    ((pcmStartRecording true pcmBase).pcmChunks = [] ∧
      (pcmStartRecording true pcmBase).wavChunks = [] ∧
      (pcmStartRecording true pcmBase).seconds = 0 ∧
      (pcmStartRecording true pcmBase).timerActive = true ∧
      (pcmStartRecording true pcmBase).micOpen = true) :=
  ⟨rfl, rfl, rfl, (c8_start_preconditions true liveBase pcmBase).2.2.1 rfl rfl rfl,
    (c8_start_preconditions true liveBase pcmBase).2.2.2.2.2 rfl rfl⟩

end OlyphVoice
